import Mathlib

/-!
# Verification of the nextellar value-translation and event-ingestion core

This file gives a shallow embedding of the two engines of the core:

* the typed value codec of `useSorobanContract` (`toXdrValue` / `fromXdrValue`
  together with the helpers `bigintToU128Parts`, `bigintToI128Parts`,
  `hiLoToI128`, `toBuffer`), and
* the event poller of `useSorobanEvents` (the dedup/cursor update of
  `fetchOnce`, the retry loop `fetchWithRetry`, the manual `refresh`, and a
  message-indexed state machine covering the mounted-flag guards around every
  suspension point, `stopPolling` and the unmount cleanup).

Modelling conventions:

* JavaScript `BigInt` is modelled as `ℤ`.  For the operand shapes used by the
  source, `n >> 64` (arithmetic shift) is floor division by `2 ^ 64`
  (`Int.fdiv`), `n & 0xFFFFFFFFFFFFFFFF` (AND with the all-ones 64-bit mask)
  is the nonnegative remainder `Int.emod n (2 ^ 64)`, `hi << 64` is
  `hi * 2 ^ 64`, and `x | y` where `x` has zero low 64 bits and
  `0 ≤ y < 2 ^ 64` is `x + y`.  These identities are exact for two's
  complement integers of arbitrary precision.
* JavaScript strings are Lean `String`s; single-character prefix tests are
  performed on `String.data`.
* The Stellar SDK is an external collaborator: its `Address` class is
  modelled as a carrier of the address text, and the `xdr.Uint64.fromString` /
  `xdr.Int64.fromString` constructors as range-validated carriers (the SDK
  rejects strings outside the 64-bit range).
* Fallible JavaScript code (`throw`) is modelled with `Except String`.
-/

/-! ## Constants (source: `useSorobanContract` / `useSorobanEvents`) -/

/-- `const MASK64 = BigInt("0xFFFFFFFFFFFFFFFF")`. -/
def MASK64 : ℤ := 0xFFFFFFFFFFFFFFFF

/-- `const MAX_RETRIES = 3`. -/
def MAX_RETRIES : ℕ := 3

/-- `const BACKOFF_BASE_MS = 1_000`. -/
def BACKOFF_BASE_MS : ℕ := 1000

/-- `const ERROR_POLL_MULTIPLIER = 2` (degraded-rate polling factor). -/
def ERROR_POLL_MULTIPLIER : ℕ := 2

/-! ## 128-bit split helpers (source: `bigintToU128Parts`, `bigintToI128Parts`,
`hiLoToI128`) -/

/-- `bigintToU128Parts`: `hi = n >> 64`, `lo = n & MASK64`, and if `hi < 0`
the hi half is normalized by adding `2 ^ 64` before being stored in the
unsigned-64 wire half. -/
def bigintToU128Parts (n : ℤ) : ℤ × ℤ :=
  let hi := Int.fdiv n (2 ^ 64)
  let lo := Int.emod n (2 ^ 64)
  (if hi < 0 then hi + (MASK64 + 1) else hi, lo)

/-- `bigintToI128Parts`: `hi = n >> 64` (arithmetic shift), `lo = n & MASK64`. -/
def bigintToI128Parts (n : ℤ) : ℤ × ℤ :=
  (Int.fdiv n (2 ^ 64), Int.emod n (2 ^ 64))

/-- `hiLoToI128`: `(hi << SHIFT64) | (lo & MASK64)`.  Since `hi << 64` has
zero low 64 bits and `lo & MASK64 ∈ [0, 2 ^ 64)`, the bitwise or is the sum. -/
def hiLoToI128 (hi lo : ℤ) : ℤ :=
  hi * 2 ^ 64 + Int.emod lo (2 ^ 64)

/-! ## The wire value (`xdr.ScVal`) and decoded native value types -/

/-- The tagged wire union produced by the SDK's `xdr.ScVal` constructors.
Numeric payloads are carried as `ℤ` (the SDK validates 64-bit ranges at
construction; the in-range checks appear in the encoder below). -/
inductive ScVal where
  | scvBool (b : Bool)
  | scvVoid
  | scvU32 (n : ℤ)
  | scvI32 (n : ℤ)
  | scvU64 (n : ℤ)
  | scvI64 (n : ℤ)
  | scvU128 (hi lo : ℤ)
  | scvI128 (hi lo : ℤ)
  | scvString (s : String)
  | scvSymbol (s : String)
  | scvBytes (bs : List ℕ)
  | scvAddress (s : String)
  | scvTimepoint (n : ℤ)
  | scvDuration (n : ℤ)
  | scvVec (l : List ScVal)
  | scvMap (entries : List (ScVal × ScVal))

/-- Decoded native JavaScript values returned by `fromXdrValue`.  `vNum` is a
JS `number`, `vBig` a JS `bigint`; both carry `ℤ`.  `vEnum` is the
`{ tag, values }` object produced by the enum heuristic. -/
inductive Val where
  | vBool (b : Bool)
  | vNull
  | vNum (n : ℤ)
  | vBig (n : ℤ)
  | vStr (s : String)
  | vBytes (bs : List ℕ)
  | vVec (l : List Val)
  | vMap (entries : List (Val × Val))
  | vEnum (tag : String) (values : List Val)

/-! ## Native encoder inputs (`TypedArg`) -/

/-- The supported Soroban type hints (`SorobanTypeHint`). -/
inductive Hint where
  | u32 | i32 | u64 | i64 | u128 | i128
  | bool | string | symbol | address | bytes
  | vec | map | enum | timepoint | duration
deriving DecidableEq, Repr

/-- A native JavaScript argument (`TypedArg`).  `jtagged v h` is the
`{ value, type }` wrapper object; `jarr` an `Array`; `jobj` a plain object
with string keys in iteration order; `jbytes` a `Uint8Array`; `jnull` the
JS `null`.  (`undefined`, SDK `Address` instances and objects carrying an
`_address` field are not representable among the modelled inputs; the claims
do not exercise those branches.) -/
inductive JSVal where
  | jbool (b : Bool)
  | jnum (n : ℤ)
  | jbig (n : ℤ)
  | jstr (s : String)
  | jbytes (bs : List ℕ)
  | jnull
  | jarr (elems : List JSVal)
  | jobj (fields : List (String × JSVal))
  | jtagged (v : JSVal) (hint : Hint)

/-- JavaScript `typeof value` over the modelled inputs (`typeof null` is
`"object"`). -/
def jsTypeof : JSVal → String
  | .jbool _ => "boolean"
  | .jnum _ => "number"
  | .jbig _ => "bigint"
  | .jstr _ => "string"
  | .jbytes _ => "object"
  | .jnull => "object"
  | .jarr _ => "object"
  | .jobj _ => "object"
  | .jtagged _ _ => "object"

mutual

/-- JavaScript `String(value)` over the modelled inputs: arrays join their
elements with commas, a `Uint8Array` prints its bytes comma-separated, plain
and tagged objects print `[object Object]`. -/
def jsString : JSVal → String
  | .jbool true => "true"
  | .jbool false => "false"
  | .jnum n => toString n
  | .jbig n => toString n
  | .jstr s => s
  | .jbytes bs => String.intercalate "," (bs.map toString)
  | .jnull => "null"
  | .jarr l => String.intercalate "," (jsStringList l)
  | .jobj _ => "[object Object]"
  | .jtagged _ _ => "[object Object]"

/-- `String()` of each array element, in order. -/
def jsStringList : List JSVal → List String
  | [] => []
  | v :: vs => jsString v :: jsStringList vs

end

/-- `BigInt(s)` on a string: an optional sign followed by decimal digits
(whitespace trimming and `0x`/`0o`/`0b` prefixes are not modelled; no claim
exercises them).  `none` models the thrown `SyntaxError`. -/
def parseBigInt? (s : String) : Option ℤ :=
  match s.data with
  | [] => some 0
  | '-' :: ds =>
      if ds ≠ [] ∧ ds.all Char.isDigit then
        some (-(Int.ofNat (String.toNat! ⟨ds⟩)))
      else none
  | ds =>
      if ds.all Char.isDigit then some (Int.ofNat (String.toNat! ⟨ds⟩))
      else none

/-- JavaScript `Number(value)` restricted to the inputs whose coercion is an
integer; `none` models `NaN` (which the XDR layer cannot represent and
rejects at write time). -/
def jsNumber? : JSVal → Option ℤ
  | .jbool true => some 1
  | .jbool false => some 0
  | .jnum n => some n
  | .jbig n => some n
  | .jnull => some 0
  | .jstr s => parseBigInt? s
  | _ => none

/-- JavaScript truthiness, `Boolean(value)`. -/
def jsTruthy : JSVal → Bool
  | .jbool b => b
  | .jnum n => n != 0
  | .jbig n => n != 0
  | .jstr s => s != ""
  | .jnull => false
  | .jbytes _ => true
  | .jarr _ => true
  | .jobj _ => true
  | .jtagged _ _ => true

/-- The value of a hex digit, or `none` for a non-hex character. -/
def hexDigitVal? (c : Char) : Option ℕ :=
  if '0' ≤ c ∧ c ≤ '9' then some (c.toNat - '0'.toNat)
  else if 'a' ≤ c ∧ c ≤ 'f' then some (c.toNat - 'a'.toNat + 10)
  else if 'A' ≤ c ∧ c ≤ 'F' then some (c.toNat - 'A'.toNat + 10)
  else none

/-- Node's lenient `Buffer.from(s, "hex")`: bytes are decoded pairwise until
the first invalid character or incomplete pair, which silently ends the
parse (it never throws). -/
def hexPairsLenient : List Char → List ℕ
  | c1 :: c2 :: rest =>
      match hexDigitVal? c1, hexDigitVal? c2 with
      | some h, some l => (16 * h + l) :: hexPairsLenient rest
      | _, _ => []
  | _ => []

/-- `toBuffer`: a `Uint8Array` is copied; a string has an optional `0x`
stripped and is then hex-decoded leniently by `Buffer.from(clean, "hex")`;
every other value throws
`Cannot convert ... to Bytes — expected Uint8Array or hex string`. -/
def toBuffer : JSVal → Except String (List ℕ)
  | .jbytes bs => .ok bs
  | .jstr s =>
      let clean : List Char :=
        match s.data with
        | '0' :: 'x' :: rest => rest
        | l => l
      .ok (hexPairsLenient clean)
  | v => .error ("Cannot convert " ++ jsTypeof v ++
      " to Bytes — expected Uint8Array or hex string")

/-- `value.startsWith(p)` for a one-character prefix `p`. -/
def strHeadIs (s : String) (c : Char) : Bool :=
  match s.data with
  | [] => false
  | c0 :: _ => c0 == c

/-- `new Address(s).toScVal()`: the SDK `Address` is modelled as a carrier of
its canonical text (strkey validation is internal to the SDK). -/
def addressToScVal (s : String) : ScVal :=
  .scvAddress s

/-- The string auto-detection branch of `toXdrValue`: a 56-character string
starting with `G` or `C` is treated as a Stellar address, any other string
becomes `scvString`. -/
def encodeString (s : String) : ScVal :=
  if (strHeadIs s 'G' || strHeadIs s 'C') && s.length == 56 then
    addressToScVal s
  else
    .scvString s

/-- `xdr.ScVal.scvI128(new xdr.Int128Parts(bigintToI128Parts(n)))`: the SDK
constructors `Int64.fromString` / `Uint64.fromString` validate that the hi
half is a signed and the lo half an unsigned 64-bit value. -/
def encodeI128 (n : ℤ) : Except String ScVal :=
  let p := bigintToI128Parts n
  if -(2 ^ 63) ≤ p.1 ∧ p.1 < 2 ^ 63 ∧ 0 ≤ p.2 ∧ p.2 < 2 ^ 64 then
    .ok (.scvI128 p.1 p.2)
  else .error "Int128Parts out of range"

/-- `xdr.ScVal.scvU128(new xdr.UInt128Parts(bigintToU128Parts(n)))`, with the
SDK validating both halves as unsigned 64-bit values. -/
def encodeU128 (n : ℤ) : Except String ScVal :=
  let p := bigintToU128Parts n
  if 0 ≤ p.1 ∧ p.1 < 2 ^ 64 ∧ 0 ≤ p.2 ∧ p.2 < 2 ^ 64 then
    .ok (.scvU128 p.1 p.2)
  else .error "UInt128Parts out of range"

/-! ## The encoder `toXdrValue`

The source is one function whose body first unwraps a `{ value, type }`
wrapper, then runs an if-chain over the hint, then an if-chain of
auto-detection tests.  The hint chain and the auto-detection chain test
disjoint conditions, so both are rendered as Lean matches whose case order
realizes the source's priority order. -/

mutual

/-- `toXdrValue(arg)`.  Thrown errors (`UnsupportedValue`) are `Except.error`. -/
def toXdrValue : JSVal → Except String ScVal
  | .jtagged value hint =>
    match hint with
    | .u32 =>
        -- `xdr.ScVal.scvU32(Number(value))`; a NaN coercion is rejected by
        -- the XDR layer.
        match jsNumber? value with
        | some n => .ok (.scvU32 n)
        | none => .error "NaN is not representable as u32"
    | .i32 =>
        match jsNumber? value with
        | some n => .ok (.scvI32 n)
        | none => .error "NaN is not representable as i32"
    | .u64 =>
        -- `xdr.Uint64.fromString(String(BigInt(String(value))))`
        match parseBigInt? (jsString value) with
        | some n =>
            if 0 ≤ n ∧ n < 2 ^ 64 then .ok (.scvU64 n)
            else .error "Uint64 out of range"
        | none => .error "Cannot convert value to a BigInt"
    | .i64 =>
        match parseBigInt? (jsString value) with
        | some n =>
            if -(2 ^ 63) ≤ n ∧ n < 2 ^ 63 then .ok (.scvI64 n)
            else .error "Int64 out of range"
        | none => .error "Cannot convert value to a BigInt"
    | .u128 =>
        -- `const n = typeof value === "string" ? BigInt(value) : value as bigint`
        match value with
        | .jstr s =>
            match parseBigInt? s with
            | some n => encodeU128 n
            | none => .error "Cannot convert string to a BigInt"
        | .jbig n => encodeU128 n
        | _ => .error "u128 hint expects a bigint or a decimal string"
    | .i128 =>
        match value with
        | .jstr s =>
            match parseBigInt? s with
            | some n => encodeI128 n
            | none => .error "Cannot convert string to a BigInt"
        | .jbig n => encodeI128 n
        | _ => .error "i128 hint expects a bigint or a decimal string"
    | .bool => .ok (.scvBool (jsTruthy value))
    | .string => .ok (.scvString (jsString value))
    | .symbol => .ok (.scvSymbol (jsString value))
    | .address => .ok (addressToScVal (jsString value))
    | .bytes =>
        match toBuffer value with
        | .ok bs => .ok (.scvBytes bs)
        | .error e => .error e
    | .timepoint =>
        -- `xdr.Uint64.fromString(String(value))`
        match parseBigInt? (jsString value) with
        | some n =>
            if 0 ≤ n ∧ n < 2 ^ 64 then .ok (.scvTimepoint n)
            else .error "Uint64 out of range"
        | none => .error "Cannot convert value to a Uint64"
    | .duration =>
        match parseBigInt? (jsString value) with
        | some n =>
            if 0 ≤ n ∧ n < 2 ^ 64 then .ok (.scvDuration n)
            else .error "Uint64 out of range"
        | none => .error "Cannot convert value to a Uint64"
    | .vec =>
        -- `(value as TypedArg[]).map(toXdrValue)`; mapping over a non-array
        -- throws a TypeError.
        match value with
        | .jarr l =>
            match encodeList l with
            | .ok xs => .ok (.scvVec xs)
            | .error e => .error e
        | _ => .error "vec hint expects an array of typed args"
    | .map =>
        match value with
        | .jarr tuples =>
            match encodePairs tuples with
            | .ok es => .ok (.scvMap es)
            | .error e => .error e
        | _ => .error "map hint expects an array of key-value tuples"
    | .enum =>
        -- `const { tag, values = [] } = value; scvVec([scvSymbol(tag), ...])`.
        -- The two modelled object shapes are the documented enum inputs.
        match value with
        | .jobj [("tag", .jstr t)] => .ok (.scvVec [.scvSymbol t])
        | .jobj [("tag", .jstr t), ("values", .jarr vals)] =>
            match encodeList vals with
            | .ok xs => .ok (.scvVec (.scvSymbol t :: xs))
            | .error e => .error e
        | _ => .error "enum hint expects a tag-values object"
  -- Auto-detection (no hint), in source order.
  | .jbool b => .ok (.scvBool b)
  | .jbig n => encodeI128 n        -- default bigint → i128
  | .jnum n => .ok (.scvI32 n)
  | .jstr s => .ok (encodeString s)
  | .jbytes bs => .ok (.scvBytes bs)
  | .jarr l =>
      match encodeList l with
      | .ok xs => .ok (.scvVec xs)
      | .error e => .error e
  | .jobj fields =>
      match encodeFields fields with
      | .ok es => .ok (.scvMap es)
      | .error e => .error e
  | .jnull => .ok (.scvString (jsString .jnull))  -- final `scvString(String(value))`

/-- Encode the elements of an array in order, propagating the first thrown
error (`arr.map(toXdrValue)`). -/
def encodeList : List JSVal → Except String (List ScVal)
  | [] => .ok []
  | v :: vs =>
      match toXdrValue v with
      | .ok x =>
          match encodeList vs with
          | .ok xs => .ok (x :: xs)
          | .error e => .error e
      | .error e => .error e

/-- Encode `[TypedArg, TypedArg][]` tuples for the map hint
(`tuples.map(([k, v]) => new xdr.ScMapEntry(...))`).  Destructuring a
non-array tuple throws. -/
def encodePairs : List JSVal → Except String (List (ScVal × ScVal))
  | [] => .ok []
  | .jarr (k :: v :: _) :: rest =>
      match toXdrValue k with
      | .ok kx =>
          match toXdrValue v with
          | .ok vx =>
              match encodePairs rest with
              | .ok es => .ok ((kx, vx) :: es)
              | .error e => .error e
          | .error e => .error e
      | .error e => .error e
  | _ :: _ => .error "map hint expects [key, value] tuple arrays"

/-- Encode `Object.entries(value)` for the plain-object auto-detection case.
Every key is a string, so its recursive encoding is exactly the string
auto-detection branch `encodeString`. -/
def encodeFields : List (String × JSVal) → Except String (List (ScVal × ScVal))
  | [] => .ok []
  | (k, v) :: rest =>
      match toXdrValue v with
      | .ok vx =>
          match encodeFields rest with
          | .ok es => .ok ((encodeString k, vx) :: es)
          | .error e => .error e
      | .error e => .error e

end

/-! ## The decoder `fromXdrValue` -/

mutual

/-- `fromXdrValue(scVal)`: total over well-formed wire values.  In the
`scvVec` branch the source first decodes every element
(`const decoded = vec.map(fromXdrValue)`), then, if the first wire element
is a symbol, reinterprets the sequence as an enum
`{ tag: vec[0].sym(), values: decoded.slice(1) }`. -/
def fromXdrValue : ScVal → Val
  | .scvBool b => .vBool b
  | .scvVoid => .vNull
  | .scvU32 n => .vNum n
  | .scvI32 n => .vNum n
  | .scvU64 n => .vBig n
  | .scvI64 n => .vBig n
  | .scvU128 hi lo =>
      -- `(hi << SHIFT64) | lo` with `lo` an unsigned 64-bit half
      .vBig (hi * 2 ^ 64 + lo)
  | .scvI128 hi lo => .vBig (hiLoToI128 hi lo)
  | .scvString s => .vStr s
  | .scvSymbol s => .vStr s
  | .scvBytes bs => .vBytes bs
  | .scvAddress s => .vStr s
  | .scvTimepoint n => .vNum n
  | .scvDuration n => .vNum n
  | .scvVec l =>
      let decoded := decodeList l
      match l with
      | .scvSymbol t :: _ => .vEnum t decoded.tail
      | _ => .vVec decoded
  | .scvMap entries => .vMap (decodeEntries entries)

/-- `vec.map(fromXdrValue)`. -/
def decodeList : List ScVal → List Val
  | [] => []
  | x :: xs => fromXdrValue x :: decodeList xs

/-- Decode map entries pairwise, preserving wire order.  (The JS `Map`
collapses duplicate keys last-wins; the claims do not exercise that, and the
ordered list keeps the full entry sequence.) -/
def decodeEntries : List (ScVal × ScVal) → List (Val × Val)
  | [] => []
  | (k, v) :: rest => (fromXdrValue k, fromXdrValue v) :: decodeEntries rest

end

/-! ## The event poller (`useSorobanEvents`)

The poller's observable state fields are `events`, `cursor` (a ref), `error`,
`isRecovering` and `loading`.  `fetchOnce` performs one `getEvents` query and
then, unless unmounted, deduplicates the mapped batch against the already
held ids and advances the cursor; `fetchWithRetry` wraps it in a bounded
retry loop with exponential backoff; scheduled polls and the manual
`refresh` share the `isFetching` in-flight guard. -/

/-- A mapped event record (`SorobanEvent`), as produced by `mapEvent` from the
SDK's `EventResponse`. -/
structure SorobanEvent where
  id : String
  eventType : String
  ledger : ℤ
  ledgerClosedAt : String
  contractId : String
  topic : List String
  value : String
  pagingToken : String
  txHash : String
  inSuccessfulContractCall : Bool
deriving DecidableEq, Repr

/-- An event record with the two fields the dedup/cursor logic reads (`id`
and `pagingToken`) set and all other fields empty. -/
def mkEvent (id pagingToken : String) : SorobanEvent :=
  ⟨id, "contract", 0, "", "", [], "", pagingToken, "", true⟩

/-- The pure tail of `fetchOnce`, applied to the already held events, the
current cursor ref and the mapped batch `newEvents`:

* `setEvents(prev => { const seen = new Set(prev.map(e => e.id));
  return [...prev, ...newEvents.filter(e => !seen.has(e.id))]; })`
* `if (newEvents.length > 0) cursorRef.current =
  newEvents[newEvents.length - 1].pagingToken;`

Note the cursor update looks at the whole mapped batch, not at the
deduplicated subsequence. -/
def applyFetchResult (prev : List SorobanEvent) (cursor : Option String)
    (newEvents : List SorobanEvent) : List SorobanEvent × Option String :=
  (prev ++ newEvents.filter (fun e => !((prev.map SorobanEvent.id).contains e.id)),
   match newEvents.getLast? with
   | some e => some e.pagingToken
   | none => cursor)

/-! ### `fetchWithRetry` -/

/-- The outcome of one `fetchWithRetry` invocation: whether it returned
`true`, the backoff delays it scheduled (in order, in milliseconds), the
number of fetch attempts made, and the error surfaced into state by
`setError` (set only after the final failed attempt). -/
structure RetryResult where
  success : Bool
  delays : List ℕ
  attempts : ℕ
  surfaced : Option String
deriving DecidableEq, Repr

/-- The `while (attempt < MAX_RETRIES)` loop of `fetchWithRetry`.  The i-th
attempt's outcome is `outcome i` (`none` = the awaited `fetchOnce` resolved,
`some e` = it threw `e`).  On a failure the attempt counter is incremented;
if attempts remain a backoff sleep of `BACKOFF_BASE_MS * 3 ^ (attempt - 1)`
milliseconds is scheduled, otherwise the error is surfaced via `setError`.
The structural `fuel` argument bounds the loop; `MAX_RETRIES` iterations
always suffice.  (The early-return dispose checks are modelled in the message
machine below; this pure loop is the always-mounted run.) -/
def retryLoop (outcome : ℕ → Option String) :
    ℕ → ℕ → List ℕ → Option String → RetryResult
  | 0, attempt, delays, surfaced =>
      { success := false, delays := delays, attempts := attempt,
        surfaced := surfaced }
  | fuel + 1, attempt, delays, surfaced =>
      if attempt < MAX_RETRIES then
        match outcome attempt with
        | none =>
            { success := true, delays := delays, attempts := attempt + 1,
              surfaced := surfaced }
        | some e =>
            if attempt + 1 < MAX_RETRIES then
              retryLoop outcome fuel (attempt + 1)
                (delays ++ [BACKOFF_BASE_MS * 3 ^ (attempt + 1 - 1)]) surfaced
            else
              retryLoop outcome fuel (attempt + 1) delays (some e)
      else
        { success := false, delays := delays, attempts := attempt,
          surfaced := surfaced }

/-- `fetchWithRetry()` with the i-th attempt resolving (`none`) or throwing
(`some e`) according to `outcome`. -/
def fetchWithRetry (outcome : ℕ → Option String) : RetryResult :=
  retryLoop outcome MAX_RETRIES 0 [] none

/-! ### Poll-cycle completion and the manual `refresh` -/

/-- The error/recovery state visible to the caller that a completed cycle
updates (`lastError` is the `error` state, plus `isRecovering` and
`loading`). -/
structure RState where
  error : Option String
  isRecovering : Bool
  loading : Bool
deriving DecidableEq, Repr

/-- The shared completion code after `await fetchWithRetry()` in a scheduled
poll tick and in `refresh`: clear `loading`; on success clear `error` and
`isRecovering`, on failure set `isRecovering` (the error itself was already
surfaced by `setError` inside the retry loop). -/
def cycleCompletion (st : RState) (r : RetryResult) : RState :=
  if r.success then
    { error := none, isRecovering := false, loading := false }
  else
    { error := match r.surfaced with | some e => some e | none => st.error,
      isRecovering := true, loading := false }

/-- `refresh()`: a no-op when a fetch is in flight; otherwise it stops
pending timers, runs one `fetchWithRetry` cycle and applies the completion
updates.  The second component is the rejection propagated to the awaiting
caller: the source's `refresh` contains no `throw`, and `fetchWithRetry`
catches every error thrown by its `fetchOnce` attempts, so the returned
promise resolves (`none`) on every path. -/
def refresh (isFetching : Bool) (st : RState) (outcome : ℕ → Option String) :
    RState × Option String :=
  if isFetching then (st, none)
  else (cycleCompletion st (fetchWithRetry outcome), none)

/-! ### The disposal-sensitive message machine

Each suspension point of the hook (the awaited `getEvents` response, the
backoff sleep, the poll timer callback) is a message; `step` applies the
source's handler for that message, including the `isMountedRef` guard the
handler performs when it resumes.  `dispose` is the unmount cleanup:
`isMountedRef.current = false` followed by `stopPolling()`. -/

/-- The observable state fields of the hook. -/
structure Obs where
  events : List SorobanEvent
  cursor : Option String
  error : Option String
  isRecovering : Bool
  loading : Bool
deriving DecidableEq, Repr

/-- Whether a poll interval is configured (`pollIntervalMs` non-null and
non-zero); `scheduleNextPoll` returns without scheduling otherwise. -/
structure PollConfig where
  pollEnabled : Bool
deriving DecidableEq, Repr

/-- The full per-instance state: observables, the `isMountedRef` and
`isFetchingRef` refs, the retry loop's attempt counter for the in-flight
cycle, a count of issued `getEvents` calls, and the two pending timers. -/
structure Sys where
  obs : Obs
  mounted : Bool
  isFetching : Bool
  attempt : ℕ
  fetchCalls : ℕ
  pollTimer : Bool
  retryTimer : Bool
deriving DecidableEq, Repr

/-- Events delivered to the instance by the runtime: the poll timer firing, the
in-flight `getEvents` promise resolving with a mapped batch or rejecting,
and the backoff sleep timer firing. -/
inductive Msg where
  | pollTimerFire
  | fetchResolve (batch : List SorobanEvent)
  | fetchReject (err : String)
  | retryTimerFire
deriving DecidableEq, Repr

/-- One handler activation.

* `pollTimerFire`: the `setTimeout` callback of `scheduleNextPoll`.  A
  cleared timer cannot fire.  The callback returns immediately when
  unmounted or when a fetch is in flight; otherwise it sets the in-flight
  guard and `loading`, and `fetchWithRetry` issues the first `getEvents`
  call of a fresh cycle.
* `fetchResolve`: the awaited `getEvents` promise resolved.  `fetchOnce`
  returns before touching state when unmounted (the awaiting completion code
  then only clears the in-flight guard); when mounted it applies
  `applyFetchResult`, and the successful cycle's completion clears `error`,
  `isRecovering` and `loading` and schedules the next poll at the base rate.
* `fetchReject`: the awaited `getEvents` promise rejected.  The catch block
  increments the attempt counter, then returns when unmounted; otherwise it
  either schedules the backoff sleep or — after the final attempt — surfaces
  the error, and the failed cycle's completion sets `isRecovering` and
  schedules the next poll at the degraded rate.
* `retryTimerFire`: the backoff sleep resolved.  A cleared timer cannot
  fire.  The loop returns when unmounted; otherwise the next attempt issues
  another `getEvents` call. -/
def step (cfg : PollConfig) (s : Sys) : Msg → Sys
  | .pollTimerFire =>
      if !s.pollTimer then s
      else
        let s := { s with pollTimer := false }
        if !s.mounted || s.isFetching then s
        else
          { s with isFetching := true, attempt := 0,
                   obs := { s.obs with loading := true },
                   fetchCalls := s.fetchCalls + 1 }
  | .fetchResolve batch =>
      if !s.isFetching then s
      else if !s.mounted then { s with isFetching := false }
      else
        let r := applyFetchResult s.obs.events s.obs.cursor batch
        { s with
          obs := { events := r.1, cursor := r.2, error := none,
                   isRecovering := false, loading := false },
          isFetching := false,
          pollTimer := cfg.pollEnabled }
  | .fetchReject e =>
      if !s.isFetching then s
      else
        let a := s.attempt + 1
        if !s.mounted then { s with isFetching := false, attempt := a }
        else if a < MAX_RETRIES then
          { s with attempt := a, retryTimer := true }
        else
          let obs' : Obs :=
            { s.obs with error := some e, isRecovering := true, loading := false }
          { s with obs := obs', isFetching := false, attempt := a,
                   pollTimer := cfg.pollEnabled }
  | .retryTimerFire =>
      if !s.retryTimer then s
      else
        let s := { s with retryTimer := false }
        if !s.mounted then { s with isFetching := false }
        else { s with fetchCalls := s.fetchCalls + 1 }

/-- `stopPolling()`: clear both pending timers. -/
def stopPollingTimers (s : Sys) : Sys :=
  { s with pollTimer := false, retryTimer := false }

/-- The unmount cleanup: `isMountedRef.current = false; stopPolling();`. -/
def dispose (s : Sys) : Sys :=
  stopPollingTimers { s with mounted := false }

/-- Deliver a sequence of runtime events to the instance. -/
def runMsgs (cfg : PollConfig) (s : Sys) (msgs : List Msg) : Sys :=
  msgs.foldl (step cfg) s

/-! # Theorems -/

/-! ## C1: 128-bit signed round-trip -/

/-- Helper: the encoder's `Int128Parts` are in the SDK's accepted 64-bit
ranges for every `n` in the signed 128-bit range. -/
theorem encodeI128_in_range (n : ℤ) (h1 : -(2 ^ 127) ≤ n) (h2 : n < 2 ^ 127) :
    encodeI128 n = .ok (.scvI128 (n / 2 ^ 64) (n % 2 ^ 64)) := by
  have hfd : Int.fdiv n (2 ^ 64) = n / 2 ^ 64 := Int.fdiv_eq_ediv n (by norm_num)
  have hlo0 : 0 ≤ n % (2 ^ 64) := Int.emod_nonneg n (by norm_num)
  have hlo1 : n % (2 ^ 64) < 2 ^ 64 := Int.emod_lt_of_pos n (by norm_num)
  have hhi1 : n / 2 ^ 64 < 2 ^ 63 := by
    have hle : n ≤ 2 ^ 127 - 1 := by omega
    have := Int.ediv_le_ediv (b := 2 ^ 127 - 1) (by norm_num : (0:ℤ) < 2 ^ 64) hle
    have hv : ((2:ℤ) ^ 127 - 1) / 2 ^ 64 = 2 ^ 63 - 1 := by
      norm_num
    omega
  have hhi0 : -(2 ^ 63) ≤ n / 2 ^ 64 := by
    have := Int.ediv_le_ediv (a := -(2 ^ 127)) (by norm_num : (0:ℤ) < 2 ^ 64) h1
    have hv : (-((2:ℤ) ^ 127)) / 2 ^ 64 = -(2 ^ 63) := by
      norm_num
    omega
  unfold encodeI128 bigintToI128Parts
  rw [hfd]
  rw [if_pos ⟨hhi0, hhi1, hlo0, hlo1⟩]
  rfl

/-- Helper: decoding the parts produced for any in-range `n` recovers `n`. -/
theorem i128_roundtrip_general (n : ℤ) (h1 : -(2 ^ 127) ≤ n) (h2 : n < 2 ^ 127) :
    Except.map fromXdrValue (toXdrValue (.jtagged (.jbig n) .i128)) =
      .ok (.vBig n) := by
  simp only [toXdrValue, encodeI128_in_range n h1 h2, Except.map, fromXdrValue,
    hiLoToI128]
  have h4 : n / 2 ^ 64 * 2 ^ 64 + Int.emod (n % 2 ^ 64) (2 ^ 64) = n := by
    have h3 : Int.emod (n % 2 ^ 64) (2 ^ 64) = n % 2 ^ 64 :=
      Int.emod_emod_of_dvd n dvd_rfl
    have h5 := Int.ediv_add_emod n (2 ^ 64)
    omega
  rw [h4]

/-- C1: for every `n` in `{0, −1, 2^63, −(2^63), 2^127−1, −(2^127)}`, decoding
the wire value produced by encoding `n` with the `i128` hint yields `n`
again: the encoder splits `n` into `hi = n >> 64` (arithmetic) and
`lo = n & (2^64−1)`, and the decoder reconstructs `(hi << 64) | (lo & mask64)`
with the sign taken from `hi`. -/
theorem i128_encode_decode_symmetry :
    Except.map fromXdrValue (toXdrValue (.jtagged (.jbig 0) .i128)) =
      .ok (.vBig 0) ∧
    Except.map fromXdrValue (toXdrValue (.jtagged (.jbig (-1)) .i128)) =
      .ok (.vBig (-1)) ∧
    Except.map fromXdrValue (toXdrValue (.jtagged (.jbig (2 ^ 63)) .i128)) =
      .ok (.vBig (2 ^ 63)) ∧
    Except.map fromXdrValue (toXdrValue (.jtagged (.jbig (-(2 ^ 63))) .i128)) =
      .ok (.vBig (-(2 ^ 63))) ∧
    Except.map fromXdrValue (toXdrValue (.jtagged (.jbig (2 ^ 127 - 1)) .i128)) =
      .ok (.vBig (2 ^ 127 - 1)) ∧
    Except.map fromXdrValue (toXdrValue (.jtagged (.jbig (-(2 ^ 127))) .i128)) =
      .ok (.vBig (-(2 ^ 127))) :=
  ⟨i128_roundtrip_general 0 (by norm_num) (by norm_num),
   i128_roundtrip_general (-1) (by norm_num) (by norm_num),
   i128_roundtrip_general (2 ^ 63) (by norm_num) (by norm_num),
   i128_roundtrip_general (-(2 ^ 63)) (by norm_num) (by norm_num),
   i128_roundtrip_general (2 ^ 127 - 1) (by norm_num) (by norm_num),
   i128_roundtrip_general (-(2 ^ 127)) (by norm_num) (by norm_num)⟩

/-! ## C6: the vec/enum decode heuristic -/

/-- Helper: `decodeList` is the elementwise decode. -/
theorem decodeList_eq_map (l : List ScVal) : decodeList l = l.map fromXdrValue := by
  induction l with
  | nil => rfl
  | cons x xs ih => simp [decodeList, ih]

/-- C6: a wire sequence decodes to the ordered sequence of its decoded
elements unless it is non-empty and its first element is a symbol, in which
case the whole sequence decodes to the Enum-shaped value
`{tag: that symbol's text, values: the decoded remaining elements}`. -/
theorem scvVec_decode_enum_heuristic (l : List ScVal) :
    fromXdrValue (.scvVec l) =
      match l with
      | .scvSymbol t :: rest => .vEnum t (rest.map fromXdrValue)
      | _ => .vVec (l.map fromXdrValue) := by
  cases l with
  | nil => simp [fromXdrValue, decodeList_eq_map]
  | cons x rest => cases x <;> simp [fromXdrValue, decodeList_eq_map]

/-! ## C7: address auto-detection -/

/-- C7: a 56-character string beginning with one of the reserved address
prefix characters (`G` for accounts, `C` for contracts), passed with no
hint, encodes to exactly the same wire value as passing it with the
explicit address hint. -/
theorem address_autodetect_matches_hint (s : String)
    (hpre : (strHeadIs s 'G' || strHeadIs s 'C') = true)
    (hlen : s.length = 56) :
    toXdrValue (.jstr s) = toXdrValue (.jtagged (.jstr s) .address) := by
  simp only [toXdrValue, encodeString, jsString, hpre, hlen]
  simp

/-- A concrete 56-character `G`-prefixed string. -/
def gAddrSample : String :=
  "GAAAAAAAAAAAAAAAAAAAAAAAAAAAAAAAAAAAAAAAAAAAAAAAAAAAAAAA"

/-- Witness for C7 at `gAddrSample`. -/
theorem address_autodetect_matches_hint_witness :
    toXdrValue (.jstr gAddrSample) =
      toXdrValue (.jtagged (.jstr gAddrSample) .address) :=
  address_autodetect_matches_hint gAddrSample (by decide) (by decide)

/-! ## C8: the bytes hint -/

/-- The spec's notion of "valid hex text" (modelled from the spec's words,
for comparison with the code's lenient parse): an optional `0x` prefix
followed by an even number of hex digits. -/
def specValidHexText (s : String) : Bool :=
  let clean : List Char :=
    match s.data with
    | '0' :: 'x' :: rest => rest
    | l => l
  clean.all (fun c => (hexDigitVal? c).isSome) && clean.length % 2 == 0

/-- Whether an encode result is a success. -/
def isOkE : Except String ScVal → Bool
  | .ok _ => true
  | .error _ => false

/-- Whether a native value is a raw byte sequence (`Uint8Array`). -/
def isJBytes : JSVal → Bool
  | .jbytes _ => true
  | _ => false

/-- Whether a native value is a string. -/
def isJStr : JSVal → Bool
  | .jstr _ => true
  | _ => false

/-- Counterexample to C8: `"zz"` is not valid hex text, yet encoding it with
the bytes hint does not fail — Node's lenient hex parse stops at the first
invalid pair and the encoder happily produces an empty byte payload. -/
theorem bytes_hint_invalid_hex_succeeds :
    specValidHexText "zz" = false ∧
    toXdrValue (.jtagged (.jstr "zz") .bytes) = .ok (.scvBytes []) := by
  constructor
  · decide
  · simp only [toXdrValue]
    rfl

/-- C8 (amended): encoding with the bytes hint fails exactly when the value
is neither a raw byte sequence nor a string; every string succeeds, with
invalid hex text silently producing a truncated (possibly empty) byte
payload. -/
theorem bytes_hint_error_iff_not_bytes_or_string (v : JSVal) :
    isOkE (toXdrValue (.jtagged v .bytes)) = (isJBytes v || isJStr v) := by
  cases v <;> simp [toXdrValue, toBuffer, isOkE, isJBytes, isJStr]

/-! ## C2: cursor update -/

/-- Counterexample to C2: a non-empty fetch batch consisting only of an
already-held id introduces zero new records (the filtered batch is empty and
the held sequence is unchanged), yet the cursor still moves to the
duplicate's paging token, because `fetchOnce` advances the cursor from the
whole mapped batch before deduplication. -/
theorem cursor_advances_on_duplicate_only_batch :
    ([mkEvent "x" "t1"].filter
      (fun e => !(([mkEvent "x" "t0"].map SorobanEvent.id).contains e.id))) = [] ∧
    (applyFetchResult [mkEvent "x" "t0"] (some "c0") [mkEvent "x" "t1"]).1 =
      [mkEvent "x" "t0"] ∧
    (applyFetchResult [mkEvent "x" "t0"] (some "c0") [mkEvent "x" "t1"]).2 =
      some "t1" ∧
    some "t1" ≠ some "c0" := by
  refine ⟨rfl, rfl, rfl, by decide⟩

/-- C2 (amended): the cursor changes exactly on a fetch returning a
non-empty batch — it is set to the last *returned* record's paging token
whether or not that record's id was new; an empty batch (and only an empty
batch, not a merely duplicate-only one) leaves the cursor unchanged. -/
theorem cursor_update_rule (prev : List SorobanEvent) (cursor : Option String)
    (batch : List SorobanEvent) :
    (batch = [] → (applyFetchResult prev cursor batch).2 = cursor) ∧
    (∀ e, batch.getLast? = some e →
      (applyFetchResult prev cursor batch).2 = some e.pagingToken) := by
  constructor
  · rintro rfl
    rfl
  · intro e he
    simp [applyFetchResult, he]

/-- Witness for C2 (amended) at concrete batches. -/
theorem cursor_update_rule_witness :
    (applyFetchResult [] (some "c0") []).2 = some "c0" ∧
    (applyFetchResult [] (some "c0") [mkEvent "a" "p1"]).2 = some "p1" :=
  ⟨(cursor_update_rule [] (some "c0") []).1 rfl,
   (cursor_update_rule [] (some "c0") [mkEvent "a" "p1"]).2 (mkEvent "a" "p1") rfl⟩

/-! ## C3: retry attempts and backoff delays -/

/-- Counterexample to C3: when every attempt fails, the scheduled backoff
delays are 1000 ms and 3000 ms only — with `MAX_RETRIES = 3` total attempts
there are just two sleeps between attempts, and the 9000 ms delay of the
claimed schedule is never scheduled. -/
theorem backoff_delays_differ_from_claim :
    (fetchWithRetry (fun _ => some "boom")).delays = [1000, 3000] ∧
    (fetchWithRetry (fun _ => some "boom")).delays ≠ [1000, 3000, 9000] := by
  refine ⟨rfl, by decide⟩

/-- C3 (amended): when every fetch attempt in one cycle fails, the poller
performs exactly 3 attempts with scheduled delays of exactly 1000 ms and
3000 ms between them (base 1000 ms times `3^(attempt−1)` for attempts 1 and
2; no sleep follows the final failure), after which the final error is
surfaced into the error state and the cycle completion sets
`isRecovering := true`. -/
theorem backoff_three_attempts_two_delays (errs : ℕ → String) (st : RState) :
    (fetchWithRetry (fun i => some (errs i))).attempts = 3 ∧
    (fetchWithRetry (fun i => some (errs i))).delays =
      [BACKOFF_BASE_MS * 3 ^ 0, BACKOFF_BASE_MS * 3 ^ 1] ∧
    (fetchWithRetry (fun i => some (errs i))).delays = [1000, 3000] ∧
    (fetchWithRetry (fun i => some (errs i))).success = false ∧
    (fetchWithRetry (fun i => some (errs i))).surfaced = some (errs 2) ∧
    cycleCompletion st (fetchWithRetry (fun i => some (errs i))) =
      { error := some (errs 2), isRecovering := true, loading := false } := by
  refine ⟨rfl, rfl, rfl, rfl, rfl, ?_⟩
  simp [cycleCompletion, fetchWithRetry, retryLoop, MAX_RETRIES]

/-! ## C4: `refresh` does not propagate the exhausted-retry failure -/

/-- Counterexample to C4: with every attempt failing, the retries are
exhausted (`success = false`) and the failure is recorded in the error
state, yet `refresh` resolves normally (`none` is propagated to the awaiting
caller) instead of rejecting. -/
theorem refresh_does_not_reject :
    (fetchWithRetry (fun _ => some "boom")).success = false ∧
    (refresh false ⟨none, false, false⟩ (fun _ => some "boom")).1.error =
      some "boom" ∧
    (refresh false ⟨none, false, false⟩ (fun _ => some "boom")).2 = none := by
  refine ⟨rfl, rfl, rfl⟩

/-- C4 (amended): a `refresh` call whose every retry attempt fails resolves
normally on every path — the exhausted-retry failure is only recorded in the
observable `error`/`isRecovering` state, never propagated as a rejection to
the caller. -/
theorem refresh_resolves_and_records_failure (errs : ℕ → String) (st : RState) :
    refresh false st (fun i => some (errs i)) =
      ({ error := some (errs 2), isRecovering := true, loading := false },
       none) := by
  simp [refresh, cycleCompletion, fetchWithRetry, retryLoop, MAX_RETRIES]

/-! ## C5 / C10: deduplication -/

/-- The number of records in `l` carrying id `x`. -/
def idCount (x : String) (l : List SorobanEvent) : ℕ :=
  l.countP (fun e => e.id == x)

/-- Helper: `idCount` distributes over append. -/
theorem idCount_append (x : String) (l1 l2 : List SorobanEvent) :
    idCount x (l1 ++ l2) = idCount x l1 + idCount x l2 :=
  List.countP_append ..

/-- Helper: a positive `idCount` is membership in the held id set. -/
theorem idCount_pos_iff_mem (x : String) (l : List SorobanEvent) :
    0 < idCount x l ↔ x ∈ l.map SorobanEvent.id := by
  rw [idCount, List.countP_pos_iff]
  simp [List.mem_map, beq_iff_eq]

/-- Helper: when `x` is not among the held ids, the dedup filter keeps every
record with id `x`, so the filtered batch carries as many `x`-records as the
raw batch. -/
theorem idCount_filter_not_held (R held : List SorobanEvent) (x : String)
    (hx : x ∉ held.map SorobanEvent.id) :
    idCount x
      (R.filter (fun e => !((held.map SorobanEvent.id).contains e.id))) =
    idCount x R := by
  rw [idCount, List.countP_filter, idCount]
  have hfun :
      (fun e : SorobanEvent =>
        (e.id == x) && !((held.map SorobanEvent.id).contains e.id)) =
      (fun e : SorobanEvent => e.id == x) := by
    funext e
    by_cases h : e.id = x
    · subst h
      simp [hx]
    · simp [beq_iff_eq, h]
  rw [hfun]

/-- Helper: when `x` is among the held ids, the dedup filter drops every
record with id `x`. -/
theorem idCount_filter_held (R held : List SorobanEvent) (x : String)
    (hx : x ∈ held.map SorobanEvent.id) :
    idCount x
      (R.filter (fun e => !((held.map SorobanEvent.id).contains e.id))) = 0 := by
  rw [idCount, List.countP_filter, List.countP_eq_zero]
  intro e _
  by_cases h : e.id = x
  · subst h
    simp [hx]
  · simp [beq_iff_eq, h]

/-- Counterexample to C5: when a single fetch batch itself contains two
records with the same fresh id, the dedup filter (which only consults
previously-held ids) keeps both, so after that fetch and a subsequent fetch
repeating the id, the held sequence carries the id twice — not exactly
once. -/
theorem dedup_fails_on_intra_batch_duplicate :
    idCount "x"
      (applyFetchResult
        (applyFetchResult [] none [mkEvent "x" "t1", mkEvent "x" "t2"]).1
        (applyFetchResult [] none [mkEvent "x" "t1", mkEvent "x" "t2"]).2
        [mkEvent "x" "t3"]).1 = 2 := by
  decide

/-- C5 (amended): for two successive fetch results `R1` then `R2`, provided
the shared id was not already held before `R1` and occurs exactly once
within `R1`, the held sequence contains that id exactly once after each of
the two fetches, and processing `R2` extends the sequence without touching
the prefix built from `R1` — the record keeps the position it received from
`R1`, and `R2`'s duplicates of it are dropped silently. -/
theorem dedup_unique_position_preserved (prev : List SorobanEvent)
    (c1 c2 : Option String) (R1 R2 : List SorobanEvent) (x : String)
    (hprev : idCount x prev = 0) (hR1 : idCount x R1 = 1) :
    idCount x (applyFetchResult prev c1 R1).1 = 1 ∧
    idCount x
      (applyFetchResult (applyFetchResult prev c1 R1).1 c2 R2).1 = 1 ∧
    (applyFetchResult (applyFetchResult prev c1 R1).1 c2 R2).1.take
        (applyFetchResult prev c1 R1).1.length =
      (applyFetchResult prev c1 R1).1 := by
  have hmem : x ∉ prev.map SorobanEvent.id := by
    intro hm
    have := (idCount_pos_iff_mem x prev).mpr hm
    omega
  have h1 : idCount x (applyFetchResult prev c1 R1).1 = 1 := by
    show idCount x (prev ++ _) = 1
    rw [idCount_append, idCount_filter_not_held R1 prev x hmem, hprev, hR1]
  have hmem1 : x ∈ (applyFetchResult prev c1 R1).1.map SorobanEvent.id :=
    (idCount_pos_iff_mem x _).mp (by omega)
  have h2 : idCount x
      (applyFetchResult (applyFetchResult prev c1 R1).1 c2 R2).1 = 1 := by
    show idCount x ((applyFetchResult prev c1 R1).1 ++ _) = 1
    rw [idCount_append, idCount_filter_held R2 _ x hmem1, h1]
  exact ⟨h1, h2, List.take_left ..⟩

/-- Witness for C5 (amended) at concrete fetches. -/
theorem dedup_unique_position_preserved_witness :
    idCount "x" (applyFetchResult [] none [mkEvent "x" "t1"]).1 = 1 ∧
    idCount "x"
      (applyFetchResult (applyFetchResult [] none [mkEvent "x" "t1"]).1
        (applyFetchResult [] none [mkEvent "x" "t1"]).2
        [mkEvent "x" "t2"]).1 = 1 ∧
    (applyFetchResult (applyFetchResult [] none [mkEvent "x" "t1"]).1
        (applyFetchResult [] none [mkEvent "x" "t1"]).2
        [mkEvent "x" "t2"]).1.take
        (applyFetchResult [] none [mkEvent "x" "t1"]).1.length =
      (applyFetchResult [] none [mkEvent "x" "t1"]).1 :=
  dedup_unique_position_preserved [] none
    (applyFetchResult [] none [mkEvent "x" "t1"]).2
    [mkEvent "x" "t1"] [mkEvent "x" "t2"] "x" (by decide) (by decide)

/-- C10: dedup is computed only against the ids held before the fetch began —
a batch containing two records with the same, previously-unheld id passes
both through the filter, so one response can introduce duplicate ids into
the held sequence. -/
theorem single_batch_duplicates_both_appended (prev : List SorobanEvent)
    (c : Option String) (e1 e2 : SorobanEvent)
    (hid : e1.id = e2.id) (hnew : idCount e1.id prev = 0) :
    (applyFetchResult prev c [e1, e2]).1 = prev ++ [e1, e2] ∧
    idCount e1.id (applyFetchResult prev c [e1, e2]).1 =
      idCount e1.id prev + 2 := by
  have hmem : e1.id ∉ prev.map SorobanEvent.id := by
    intro hm
    have := (idCount_pos_iff_mem e1.id prev).mpr hm
    omega
  have hc1 : (prev.map SorobanEvent.id).contains e1.id = false := by
    simp [hmem]
  have hc2 : (prev.map SorobanEvent.id).contains e2.id = false := by
    rw [← hid]
    exact hc1
  have hp1 : ∀ y ∈ prev, ¬y.id = e1.id := by
    intro y hy he
    exact hmem (List.mem_map.mpr ⟨y, hy, he⟩)
  have hp2 : ∀ y ∈ prev, ¬y.id = e2.id := by
    intro y hy he
    rw [← hid] at he
    exact hmem (List.mem_map.mpr ⟨y, hy, he⟩)
  have hfilter :
      ([e1, e2].filter
        (fun e => !((prev.map SorobanEvent.id).contains e.id))) = [e1, e2] := by
    simp [List.filter_cons]
    rw [if_pos hp1, if_pos hp2]
  constructor
  · show prev ++ _ = prev ++ [e1, e2]
    rw [hfilter]
  · show idCount e1.id (prev ++ _) = idCount e1.id prev + 2
    rw [hfilter, idCount_append]
    have : idCount e1.id [e1, e2] = 2 := by
      simp [idCount, List.countP_cons, beq_iff_eq, hid]
    rw [this]

/-- Witness for C10 at a concrete duplicate-carrying batch. -/
theorem single_batch_duplicates_both_appended_witness :
    (applyFetchResult [] none [mkEvent "x" "t1", mkEvent "x" "t2"]).1 =
      [] ++ [mkEvent "x" "t1", mkEvent "x" "t2"] ∧
    idCount (mkEvent "x" "t1").id
      (applyFetchResult [] none [mkEvent "x" "t1", mkEvent "x" "t2"]).1 =
      idCount (mkEvent "x" "t1").id [] + 2 :=
  single_batch_duplicates_both_appended [] none
    (mkEvent "x" "t1") (mkEvent "x" "t2") rfl (by decide)

/-! ## C9: disposal -/

/-- Helper: once the mounted flag is down, every handler activation leaves
the observable state fields and the count of issued fetch calls unchanged
(the guards after each suspension point at most clear the in-flight ref and
the fired timer flag), and cannot raise the flag again. -/
theorem step_unmounted (cfg : PollConfig) (s : Sys) (m : Msg)
    (h : s.mounted = false) :
    (step cfg s m).obs = s.obs ∧ (step cfg s m).fetchCalls = s.fetchCalls ∧
    (step cfg s m).mounted = false := by
  cases m <;> simp [step, h] <;> split <;> simp [h]

/-- C9: after the poller is disposed (the unmount cleanup lowers the mounted
flag and clears both timers), delivering any sequence of runtime events —
timer firings, a late resolution or rejection of an in-flight fetch, a late
backoff-sleep resolution — issues no further fetch calls and never mutates
the observable state fields (events, cursor, error, isRecovering,
loading). -/
theorem disposed_poller_is_inert (cfg : PollConfig) (s : Sys)
    (msgs : List Msg) :
    (runMsgs cfg (dispose s) msgs).obs = s.obs ∧
    (runMsgs cfg (dispose s) msgs).fetchCalls = s.fetchCalls := by
  have key : ∀ (t : Sys), t.mounted = false →
      (runMsgs cfg t msgs).obs = t.obs ∧
      (runMsgs cfg t msgs).fetchCalls = t.fetchCalls ∧
      (runMsgs cfg t msgs).mounted = false := by
    induction msgs with
    | nil => exact fun t ht => ⟨rfl, rfl, ht⟩
    | cons m ms ih =>
      intro t ht
      have h1 := step_unmounted cfg t m ht
      have h2 := ih (step cfg t m) h1.2.2
      exact ⟨h2.1.trans h1.1, h2.2.1.trans h1.2.1, h2.2.2⟩
  have hd := key (dispose s) rfl
  exact ⟨hd.1, hd.2.1⟩
